import Mathlib

/-!
Verification development for the Javari intelligence layer.

JavaScript/TypeScript strings are modelled as lists of characters
(`JStr`), numbers that only pass through arithmetic as rationals, and
every fallible external call (embedding provider, knowledge store) as an
explicit `Except`-valued oracle passed to the modelled function, so that
the control flow of the source (throw / catch / fall through) is
reproduced exactly.
-/

namespace Javari

/-- JavaScript strings, modelled as lists of characters. -/
abbrev JStr := List Char

/-- `needle` occurs as a contiguous substring of `hay`
(JavaScript `hay.includes(needle)`). -/
def jsIncludes (hay needle : JStr) : Bool := decide (needle <:+: hay)

/-- Whitespace characters removed by JavaScript `String.prototype.trim`
(the ASCII ones that can occur in our inputs). -/
def isWS (c : Char) : Bool := c = ' ' || c = '\t' || c = '\n' || c = '\r'

/-- JavaScript `s.trim()`: remove leading and trailing whitespace. -/
def trim (s : JStr) : JStr := List.rdropWhile isWS (List.dropWhile isWS s)

/-- JavaScript `Math.round` on a rational: half-up rounding. -/
def jsRound (q : ℚ) : Int := ⌊q + 1 / 2⌋

/-- JavaScript truthiness of a possibly-absent number
(`null`/`undefined`/`0` are falsy). -/
def truthyNum : Option ℚ → Bool
  | none => false
  | some q => decide (q ≠ 0)

/-- JavaScript `a || b || null` on possibly-absent numbers. -/
def jsOrNull (a b : Option ℚ) : Option ℚ :=
  if truthyNum a then a else if truthyNum b then b else none

/-! ## Embedding service (`lib/embeddings.ts`) -/

/-- `BATCH_SIZE = 100`: pages/texts per provider call. -/
def BATCH_SIZE : Nat := 100

/-- `MAX_TOKENS = 8000`: truncation budget for one embedded text. -/
def MAX_TOKENS : Nat := 8000

/-- `truncateText(text, maxTokens)`: approximate one token as 4
characters; texts within the budget are returned unchanged, longer ones
are cut at `maxTokens * 4` characters and get a `'...'` marker. -/
def truncateText (text : JStr) (maxTokens : Nat) : JStr :=
  let maxChars := maxTokens * 4
  if text.length ≤ maxChars then text
  else text.take maxChars ++ "...".toList

/-- One element of the value returned by `generateEmbeddingsBatch`:
an embedding vector together with the (approximate) token count billed
to that text. -/
structure EmbItem where
  embedding : List ℚ
  tokenCount : ℚ
  deriving DecidableEq

/-- Outcome of one OpenAI `embeddings.create` call on a batch: either a
thrown error, or the list of returned vectors (`response.data[i].embedding`)
together with the aggregate `response.usage.total_tokens`. -/
abbrev ProviderResp := Except JStr (List (List ℚ) × ℚ)

/-- A provider oracle: the response of the `i`-th provider call, given
the (truncated) texts submitted in that call. -/
abbrev ProviderOracle := Nat → List JStr → ProviderResp

/-- The slicing loop of `generateEmbeddingsBatch`: take `BATCH_SIZE`
texts, truncate each, call the provider, and give every returned item
the aggregate token count divided by the batch length; a thrown provider
error aborts the whole call.  The fuel argument (instantiated with the
list length) only makes the recursion structural. -/
def gEBgo (oracle : ProviderOracle) : Nat → List JStr → Nat → Except JStr (List EmbItem)
  | _, [], _ => .ok []
  | 0, _ :: _, _ => .ok []
  | fuel + 1, t :: ts, idx =>
    let batch := (t :: ts).take BATCH_SIZE
    let truncatedBatch := batch.map (fun s => truncateText s MAX_TOKENS)
    match oracle idx truncatedBatch with
    | .error e => .error e
    | .ok (data, total) =>
      match gEBgo oracle fuel ((t :: ts).drop BATCH_SIZE) (idx + 1) with
      | .error e => .error e
      | .ok rest =>
        .ok ((data.map fun emb => { embedding := emb, tokenCount := total / (batch.length : ℚ) }) ++ rest)

/-- `generateEmbeddingsBatch(texts)`: embeddings for many texts, issued
in `BATCH_SIZE`-sized provider calls. -/
def generateEmbeddingsBatch (texts : List JStr) (oracle : ProviderOracle) :
    Except JStr (List EmbItem) :=
  gEBgo oracle texts.length texts 0

/-- A documentation page fetched by `generateMissingEmbeddings`
(`id, title, content` of a row whose embedding is null). -/
structure PageRec where
  id : Nat
  title : JStr
  content : JStr
  deriving DecidableEq

/-- Success of the store update for item `j` of batch `i`
(`supabase.update(...).eq('id', ...)` returning no error). -/
abbrev UpdateOracle := Nat → Nat → Bool

/-- One iteration of the batch loop of `generateMissingEmbeddings` on
batch number `idx`: returns the deltas `(processed, failed, totalTokens)`
contributed by that batch.  A thrown error anywhere in the `try` block —
the provider call failing, or a returned item missing when
`embeddings[index]` is read — counts the whole batch as failed. -/
def processBatch (embedOracle : ProviderOracle) (updOk : UpdateOracle)
    (idx : Nat) (batch : List PageRec) : Nat × Nat × Int :=
  let texts := batch.map (fun p => trim (p.title ++ '\n' :: '\n' :: p.content))
  match generateEmbeddingsBatch texts (fun _ ts => embedOracle idx ts) with
  | .error _ => (0, batch.length, 0)
  | .ok embeddings =>
    if embeddings.length < batch.length then (0, batch.length, 0)
    else
      let updates := (batch.zip embeddings).map
        (fun pe => (pe.1.id, jsRound pe.2.tokenCount))
      (updates.enum.foldl
        (fun acc ju =>
          if updOk idx ju.1 then (acc.1 + 1, acc.2.1, acc.2.2 + ju.2.2)
          else (acc.1, acc.2.1 + 1, acc.2.2))
        ((0, 0, 0) : Nat × Nat × Int))

/-- Slice a page list into consecutive `BATCH_SIZE`-sized batches
(the `for (let i = 0; i < pages.length; i += BATCH_SIZE)` loop).  Fuel
(instantiated with the list length) makes the recursion structural. -/
def batchesGo : Nat → List PageRec → List (List PageRec)
  | _, [] => []
  | 0, _ :: _ => []
  | fuel + 1, p :: ps => ((p :: ps).take BATCH_SIZE) :: batchesGo fuel ((p :: ps).drop BATCH_SIZE)

/-- The batches processed by `generateMissingEmbeddings` for a given
fetched page list. -/
def batchesOf (pages : List PageRec) : List (List PageRec) :=
  batchesGo pages.length pages

/-- Value returned by `generateMissingEmbeddings`. -/
structure GenResult where
  processed : Nat
  failed : Nat
  totalCost : ℚ
  deriving DecidableEq

/-- Componentwise accumulation of per-batch deltas. -/
def addDelta (a b : Nat × Nat × Int) : Nat × Nat × Int :=
  (a.1 + b.1, a.2.1 + b.2.1, a.2.2 + b.2.2)

/-- `generateMissingEmbeddings`, modelled after the fetch of the pages
without embeddings succeeded and returned `pages`: process the pages in
`BATCH_SIZE`-sized batches, count successes and failures, and convert the
summed token counts to a cost at $0.00002 per 1000 tokens. -/
def generateMissingEmbeddings (pages : List PageRec)
    (embedOracle : ProviderOracle) (updOk : UpdateOracle) : GenResult :=
  if pages = [] then { processed := 0, failed := 0, totalCost := 0 }
  else
    let deltas := (batchesOf pages).enum.foldl
      (fun acc ib => addDelta acc (processBatch embedOracle updOk ib.1 ib.2))
      ((0, 0, 0) : Nat × Nat × Int)
    { processed := deltas.1
      failed := deltas.2.1
      totalCost := (deltas.2.2 : ℚ) / 1000 * (2 / 100000) }

/-! ## Query analyzer (`analyzeQuery` in `lib/embeddings.ts`) -/

/-- The five query intents. -/
inductive Intent
  | howTo
  | explanation
  | reference
  | troubleshooting
  | comparison
  deriving DecidableEq

/-- The three complexity classes. -/
inductive Complexity
  | simple
  | moderate
  | complex
  deriving DecidableEq

/-- Value returned by `analyzeQuery`. -/
structure QueryAnalysis where
  intent : Option Intent
  complexity : Complexity
  topics : List JStr
  languages : List JStr
  deriving DecidableEq

/-- The `languageKeywords` vocabulary, in declaration order. -/
def languageKeywords : List JStr :=
  ["javascript", "typescript", "python", "java", "c++", "c#", "go", "rust",
   "ruby", "php", "swift", "kotlin", "scala", "html", "css", "sql"].map String.toList

/-- The `topicKeywords` vocabulary, in declaration order. -/
def topicKeywords : List JStr :=
  ["react", "vue", "angular", "svelte", "next.js", "node.js", "express",
   "django", "flask", "fastapi", "postgresql", "mongodb", "redis",
   "docker", "kubernetes", "aws", "git", "webpack", "vite", "babel"].map String.toList

/-- The intent if/else-if chain of `analyzeQuery`, applied to the
lower-cased query. -/
def detectIntent (lowerQuery : JStr) : Option Intent :=
  if jsIncludes lowerQuery "how to".toList || jsIncludes lowerQuery "how do i".toList ||
      jsIncludes lowerQuery "how can".toList then
    some .howTo
  else if jsIncludes lowerQuery "what is".toList || jsIncludes lowerQuery "what are".toList ||
      jsIncludes lowerQuery "explain".toList then
    some .explanation
  else if jsIncludes lowerQuery "vs".toList || jsIncludes lowerQuery "versus".toList ||
      jsIncludes lowerQuery "compare".toList ||
      jsIncludes lowerQuery "difference between".toList then
    some .comparison
  else if jsIncludes lowerQuery "error".toList || jsIncludes lowerQuery "not working".toList ||
      jsIncludes lowerQuery "fix".toList || jsIncludes lowerQuery "debug".toList then
    some .troubleshooting
  else if (lowerQuery.splitOn ' ').length ≤ 3 then
    some .reference
  else
    none

/-- The complexity if/else-if chain of `analyzeQuery`, applied to the
original query text. -/
def detectComplexity (queryText : JStr) : Complexity :=
  if 100 < queryText.length ∨ 15 < (queryText.splitOn ' ').length then .complex
  else if 50 < queryText.length ∨ 8 < (queryText.splitOn ' ').length then .moderate
  else .simple

/-- `analyzeQuery(queryText)`: rule-based intent, complexity, topic and
language detection. -/
def analyzeQuery (queryText : JStr) : QueryAnalysis :=
  let lowerQuery := queryText.map Char.toLower
  { intent := detectIntent lowerQuery
    complexity := detectComplexity queryText
    topics := topicKeywords.filter (fun k => jsIncludes lowerQuery k)
    languages := languageKeywords.filter (fun k => jsIncludes lowerQuery k) }

/-! ## Text chunker (`chunkText` in the knowledge upload endpoint) -/

/-- Sentence terminators of the chunker regex `[^.!?]+[.!?]+`. -/
def isTerminator (c : Char) : Bool := c = '.' || c = '!' || c = '?'

/-- Scanner for `text.match(/[^.!?]+[.!?]+/g)`: skip terminator
characters, then emit one maximal run of non-terminators followed by its
maximal run of terminators; a final run with no terminator is not a
match.  The fuel argument (instantiated with the text length) only makes
the recursion structural. -/
def msGo : Nat → JStr → List JStr
  | 0, _ => []
  | _ + 1, [] => []
  | fuel + 1, c :: rest =>
    if isTerminator c then
      msGo fuel rest
    else
      let body := (c :: rest).takeWhile (fun x => !isTerminator x)
      let after := (c :: rest).dropWhile (fun x => !isTerminator x)
      let terms := after.takeWhile isTerminator
      if terms.isEmpty then []
      else (body ++ terms) :: msGo fuel (after.dropWhile isTerminator)

/-- All matches of `/[^.!?]+[.!?]+/g` in `text`. -/
def matchSentences (text : JStr) : List JStr := msGo text.length text

/-- `text.match(/[^.!?]+[.!?]+/g) || [text]`: the sentence list the
chunker iterates over (`null`, i.e. no match, falls back to the whole
text as one sentence). -/
def sentencesOf (text : JStr) : List JStr :=
  match matchSentences text with
  | [] => [text]
  | s :: ss => s :: ss

/-- The sentence accumulation loop of `chunkText`: append sentences to
`currentChunk` (with a `' '` separator) until appending the next
sentence would push the buffer past `chunkSize`, then emit the trimmed
buffer and restart from the overflowing sentence; the final nonempty
trimmed buffer is also emitted. -/
def chunkLoop (chunkSize : Nat) : List JStr → JStr → List JStr
  | [], currentChunk =>
    if 0 < (trim currentChunk).length then [trim currentChunk] else []
  | sentence :: rest, currentChunk =>
    if chunkSize < (currentChunk ++ sentence).length ∧ 0 < currentChunk.length then
      trim currentChunk :: chunkLoop chunkSize rest sentence
    else
      chunkLoop chunkSize rest (currentChunk ++ ' ' :: sentence)

/-- The chunks emitted by the accumulation phase of `chunkText`, before
the tiny-chunk filter. -/
def rawChunks (text : JStr) (chunkSize : Nat := 500) : List JStr :=
  chunkLoop chunkSize (sentencesOf text) []

/-- `chunkText(text, chunkSize = 500)`: sentence-respecting greedy
chunking followed by `chunks.filter(chunk => chunk.length > 20)`. -/
def chunkText (text : JStr) (chunkSize : Nat := 500) : List JStr :=
  (rawChunks text chunkSize).filter (fun chunk => decide (20 < chunk.length))

/-! ## Analyze-query endpoint (`POST /api/analyze-query`) -/

/-- `searchType` of a search request. -/
inductive SearchType
  | semantic
  | hybrid
  | fulltext
  deriving DecidableEq

/-- The parsed request body, with the handler's defaults. -/
structure SearchRequest where
  query : JStr
  searchType : SearchType := .hybrid
  matchThreshold : ℚ := 7 / 10
  matchCount : Nat := 10
  trackQuery : Bool := true
  deriving DecidableEq

/-- One row of search results, in the shape the handler consumes:
`page_id`, pass-through display fields, and the two possible score
fields (`similarity` from the semantic path, `combined_score` from the
hybrid path); `none` models an absent or null field. -/
structure ResultRow where
  page_id : Nat
  title : JStr := []
  url : JStr := []
  content : JStr := []
  «section» : JStr := []
  source_name : JStr := []
  similarity : Option ℚ := none
  combined_score : Option ℚ := none
  deriving DecidableEq

/-- A `documentation_pages` row returned by the full-text query. -/
structure FulltextPage where
  id : Nat
  title : JStr := []
  url : JStr := []
  content : JStr := []
  «section» : JStr := []
  source_name : JStr := []
  deriving DecidableEq

/-- Normalization of a full-text page into the result shape
(`similarity: null`, no combined score). -/
def pageToRow (page : FulltextPage) : ResultRow :=
  { page_id := page.id
    title := page.title
    url := page.url
    content := page.content
    «section» := page.«section»
    source_name := page.source_name
    similarity := none
    combined_score := none }

deriving instance DecidableEq for Except

/-- Outcomes of the external calls the handler can make during one
request: the embedding provider (`generateEmbedding`), the three store
queries, and the tracking insert.  `.error` models a thrown error or a
returned store error (both are thrown by the handler); for the insert,
`.ok none` models `queryError` being set and `.ok (some id)` a
successful insert returning `id`. -/
structure Env where
  embedResult : Except JStr (List ℚ)
  semanticResult : Except JStr (Option (List ResultRow))
  hybridResult : Except JStr (Option (List ResultRow))
  fulltextResult : Except JStr (Option (List FulltextPage))
  insertResult : Except JStr (Option Nat)
  elapsed : Nat
  deriving DecidableEq

/-- The row inserted into `user_queries` by the tracking step. -/
structure TrackRow where
  query_text : JStr
  query_embedding : Option (List ℚ)
  query_intent : Option Intent
  query_complexity : Complexity
  detected_topics : Option (List JStr)
  detected_languages : Option (List JStr)
  found_in_docs : Bool
  relevant_page_ids : List Nat
  top_similarity_score : Option ℚ
  response_time_ms : Nat
  metadata_search_method : JStr
  metadata_result_count : Nat
  deriving DecidableEq

/-- The `search` block of a successful response. -/
structure SearchMeta where
  method : JStr
  resultCount : Nat
  responseTime : Nat
  foundInDocs : Bool
  deriving DecidableEq

/-- A successful (`success: true`) response body. -/
structure SuccessResponse where
  queryText : JStr
  analysis : QueryAnalysis
  queryId : Option Nat
  search : SearchMeta
  results : List ResultRow
  deriving DecidableEq

/-- An error response: HTTP status, message, and — only on the 500
path — the elapsed time. -/
structure ErrorResponse where
  status : Nat
  message : JStr
  responseTime : Option Nat
  deriving DecidableEq

/-- Step 2 of the handler: generate the query embedding for the
semantic and hybrid search types; a provider failure is a thrown error.
For `fulltext` the embedding stays `null`. -/
def getQueryEmbedding (req : SearchRequest) (env : Env) : Except JStr (Option (List ℚ)) :=
  if req.searchType = .semantic ∨ req.searchType = .hybrid then
    match env.embedResult with
    | .error e => .error e
    | .ok embedding => .ok (some embedding)
  else
    .ok none

/-- Step 3 of the handler: the three-way strategy dispatch on
`searchType` and the presence of `queryEmbedding`, returning the result
rows and the `searchMethod` string; a store error is thrown. -/
def runSearch (req : SearchRequest) (env : Env) (queryEmbedding : Option (List ℚ)) :
    Except JStr (List ResultRow × JStr) :=
  if req.searchType = .semantic ∧ queryEmbedding.isSome then
    match env.semanticResult with
    | .error e => .error e
    | .ok data => .ok (data.getD [], "semantic".toList)
  else if req.searchType = .hybrid ∧ queryEmbedding.isSome then
    match env.hybridResult with
    | .error e => .error e
    | .ok data => .ok (data.getD [], "hybrid".toList)
  else
    match env.fulltextResult with
    | .error e => .error e
    | .ok data => .ok ((data.getD []).map pageToRow, "fulltext".toList)

/-- The body of the handler's `try` block after validation: analysis,
embedding, search, result bookkeeping, tracking, and response assembly.
Returns the response together with the `user_queries` row actually
stored (if the tracking insert succeeded). -/
def postCore (req : SearchRequest) (env : Env) :
    Except JStr (SuccessResponse × Option TrackRow) :=
  let analysis := analyzeQuery req.query
  match getQueryEmbedding req env with
  | .error e => .error e
  | .ok queryEmbedding =>
    match runSearch req env queryEmbedding with
    | .error e => .error e
    | .ok (results, searchMethod) =>
      let foundInDocs := decide (0 < results.length)
      let topSimilarity :=
        jsOrNull (results.head?.bind (fun r => r.similarity))
          (results.head?.bind (fun r => r.combined_score))
      let row : TrackRow :=
        { query_text := req.query
          query_embedding := queryEmbedding
          query_intent := analysis.intent
          query_complexity := analysis.complexity
          detected_topics :=
            if 0 < analysis.topics.length then some analysis.topics else none
          detected_languages :=
            if 0 < analysis.languages.length then some analysis.languages else none
          found_in_docs := foundInDocs
          relevant_page_ids := (results.map (fun r => r.page_id)).take 10
          top_similarity_score := topSimilarity
          response_time_ms := env.elapsed
          metadata_search_method := searchMethod
          metadata_result_count := results.length }
      let tracked : Option Nat × Option TrackRow :=
        if req.trackQuery then
          match env.insertResult with
          | .ok (some id) => (some id, some row)
          | _ => (none, none)
        else (none, none)
      .ok
        ({ queryText := req.query
           analysis := analysis
           queryId := tracked.1
           search :=
             { method := searchMethod
               resultCount := results.length
               responseTime := env.elapsed
               foundInDocs := foundInDocs }
           results := results.take req.matchCount }
        , tracked.2)

/-- The `POST /api/analyze-query` handler: empty or whitespace-only
queries are rejected with a 400; any error thrown inside the `try` block
is caught and returned as a 500 with the elapsed time; otherwise the
successful response from `postCore` is returned. -/
def POST (req : SearchRequest) (env : Env) :
    Except ErrorResponse (SuccessResponse × Option TrackRow) :=
  if (trim req.query).length = 0 then
    .error { status := 400, message := "Query is required".toList, responseTime := none }
  else
    match postCore req env with
    | .error e => .error { status := 500, message := e, responseTime := some env.elapsed }
    | .ok v => .ok v

/-! ## Specification-side definitions

Definitions in this section follow the wording of the specification
(not the source) and are compared with the source-derived definitions
above by refinement theorems. -/

/-- Spec wording: the how-to keywords, in the spec's order. -/
def specHowToKeywords : List JStr := ["how to", "how do i", "how can"].map String.toList

/-- Spec wording: the explanation keywords, in the spec's order. -/
def specExplanationKeywords : List JStr := ["what is", "what are", "explain"].map String.toList

/-- Spec wording: the comparison keywords, in the spec's order. -/
def specComparisonKeywords : List JStr :=
  ["vs", "versus", "compare", "difference between"].map String.toList

/-- Spec wording: the troubleshooting keywords, in the spec's order. -/
def specTroubleshootingKeywords : List JStr :=
  ["error", "not working", "fix", "debug"].map String.toList

/-- Intent assignment as worded by the spec: ordered keyword matching
against the lower-cased query, one rule class after the other, first
match wins; if no rule fires and the query has at most 3 words
(space-separated segments), the intent is reference, otherwise none. -/
def specIntent (queryText : JStr) : Option Intent :=
  let lowerQuery := queryText.map Char.toLower
  if specHowToKeywords.any (fun k => jsIncludes lowerQuery k) then some .howTo
  else if specExplanationKeywords.any (fun k => jsIncludes lowerQuery k) then some .explanation
  else if specComparisonKeywords.any (fun k => jsIncludes lowerQuery k) then some .comparison
  else if specTroubleshootingKeywords.any (fun k => jsIncludes lowerQuery k) then
    some .troubleshooting
  else if (lowerQuery.splitOn ' ').length ≤ 3 then some .reference
  else none

/-! ## Derived definitions and concrete witness inputs -/

/-- Number of provider calls `generateEmbeddingsBatch` makes for `n`
texts: `⌈n / BATCH_SIZE⌉`. -/
def numBatches (n : Nat) : Nat := (n + (BATCH_SIZE - 1)) / BATCH_SIZE

/-- The `i`-th `BATCH_SIZE`-sized slice of the text list (the `batch`
of iteration `i`). -/
def sliceOf (texts : List JStr) (i : Nat) : List JStr :=
  (texts.drop (BATCH_SIZE * i)).take BATCH_SIZE

/-- The items `generateEmbeddingsBatch` produces for slice `i`: one item
per returned vector, each carrying the aggregate token count of the call
divided by the number of texts in that slice. -/
def sliceItems (oracle : ProviderOracle) (texts : List JStr) (i : Nat) : List EmbItem :=
  match oracle i ((sliceOf texts i).map (fun s => truncateText s MAX_TOKENS)) with
  | .ok dt =>
    dt.1.map (fun emb => { embedding := emb, tokenCount := dt.2 / ((sliceOf texts i).length : ℚ) })
  | .error _ => []

/-- The top similarity score stored for a request, when a tracking row
was stored. -/
def storedTopScore (r : Except ErrorResponse (SuccessResponse × Option TrackRow)) :
    Option (Option ℚ) :=
  match r with
  | .ok (_, some row) => some row.top_similarity_score
  | _ => none

/-- Concrete request for the C2 witness. -/
def c2req : SearchRequest := { query := "test".toList, searchType := .fulltext }

/-- Concrete environment for the C2 witness: the fulltext query returns
one page and the tracking insert succeeds with id 3. -/
def c2env : Env :=
  { embedResult := .ok [], semanticResult := .ok none, hybridResult := .ok none,
    fulltextResult := .ok (some [{ id := 1 }]), insertResult := .ok (some 3), elapsed := 0 }

/-- The response the handler produces on `c2req`/`c2env`. -/
def c2resp : SuccessResponse :=
  { queryText := "test".toList
    analysis := { intent := some .reference, complexity := .simple, topics := [], languages := [] }
    queryId := some 3
    search :=
      { method := "fulltext".toList, resultCount := 1, responseTime := 0, foundInDocs := true }
    results := [{ page_id := 1 }] }

/-- The tracking row the handler stores on `c2req`/`c2env`. -/
def c2row : TrackRow :=
  { query_text := "test".toList
    query_embedding := none
    query_intent := some .reference
    query_complexity := .simple
    detected_topics := none
    detected_languages := none
    found_in_docs := true
    relevant_page_ids := [1]
    top_similarity_score := none
    response_time_ms := 0
    metadata_search_method := "fulltext".toList
    metadata_result_count := 1 }

/-- Pages for the C3 witness: one batch of five. -/
def c3pages : List PageRec :=
  (List.range 5).map (fun i => { id := i, title := [], content := ['x'] })

/-- Provider for the C3 witness: every embedding call throws. -/
def c3oracle : ProviderOracle := fun _ _ => .error "rate limited".toList

/-- Update oracle for the C3 witness (never consulted on the failing
path). -/
def c3upd : UpdateOracle := fun _ _ => true

/-- Texts for the C4 witness. -/
def c4texts : List JStr := ["aa".toList, "bb".toList, "cc".toList]

/-- Provider for the C4 witness: one vector per text and an aggregate
usage of 300 tokens. -/
def c4oracle : ProviderOracle := fun _ _ => .ok ([[1], [2], [3]], 300)

/-- The value `generateEmbeddingsBatch` returns on the C4 witness input. -/
def c4res : List EmbItem :=
  [{ embedding := [1], tokenCount := 300 / ((3 : ℕ) : ℚ) },
   { embedding := [2], tokenCount := 300 / ((3 : ℕ) : ℚ) },
   { embedding := [3], tokenCount := 300 / ((3 : ℕ) : ℚ) }]

/-- Concrete request for the C9 witness. -/
def c9req : SearchRequest := { query := "test".toList, searchType := .hybrid }

/-- Concrete environment for the C9 witness: the hybrid query returns
one row with a nonzero combined score and the tracking insert succeeds
with id 9. -/
def c9env : Env :=
  { embedResult := .ok [],
    hybridResult := .ok (some [{ page_id := 4, combined_score := some 1 }]),
    semanticResult := .ok none, fulltextResult := .ok none,
    insertResult := .ok (some 9), elapsed := 2 }

/-- The response the handler produces on `c9req`/`c9env`. -/
def c9resp : SuccessResponse :=
  { queryText := "test".toList
    analysis := { intent := some .reference, complexity := .simple, topics := [], languages := [] }
    queryId := some 9
    search :=
      { method := "hybrid".toList, resultCount := 1, responseTime := 2, foundInDocs := true }
    results := [{ page_id := 4, combined_score := some 1 }] }

/-- The tracking row the handler stores on `c9req`/`c9env`. -/
def c9row : TrackRow :=
  { query_text := "test".toList
    query_embedding := some []
    query_intent := some .reference
    query_complexity := .simple
    detected_topics := none
    detected_languages := none
    found_in_docs := true
    relevant_page_ids := [4]
    top_similarity_score := some 1
    response_time_ms := 2
    metadata_search_method := "hybrid".toList
    metadata_result_count := 1 }

/-! ## Helper lemmas -/

theorem length_dropWhile_le' (p : Char → Bool) (l : JStr) :
    (List.dropWhile p l).length ≤ l.length := by
  have h := congrArg List.length (List.takeWhile_append_dropWhile (p := p) (l := l))
  simp only [List.length_append] at h
  omega

/-- `trim` is idempotent. -/
theorem trim_trim (s : JStr) : trim (trim s) = trim s := by
  unfold trim
  have hfix : List.dropWhile isWS (List.dropWhile isWS s) = List.dropWhile isWS s :=
    List.dropWhile_idempotent isWS s
  have h1 : List.dropWhile isWS (List.rdropWhile isWS (List.dropWhile isWS s)) =
      List.rdropWhile isWS (List.dropWhile isWS s) := by
    rcases hr : List.rdropWhile isWS (List.dropWhile isWS s) with _ | ⟨a, t⟩
    · simp
    · have hpre := List.rdropWhile_prefix isWS (List.dropWhile isWS s)
      rw [hr] at hpre
      obtain ⟨rest, hrest⟩ := hpre
      have ha : ¬ isWS a = true := by
        rw [← hrest] at hfix
        have h0 : 0 < (a :: (t ++ rest)).length := by simp
        have := List.dropWhile_eq_self_iff.mp (by simpa using hfix) h0
        simpa using this
      exact List.dropWhile_cons_of_neg ha
  rw [h1, List.rdropWhile_idempotent]

/-- Every chunk emitted by the accumulation loop is the trim of some
buffer. -/
theorem mem_chunkLoop_eq_trim (chunkSize : Nat) (sents : List JStr) (cur c : JStr)
    (hc : c ∈ chunkLoop chunkSize sents cur) : ∃ b, c = trim b := by
  induction sents generalizing cur with
  | nil =>
    unfold chunkLoop at hc
    split at hc
    · exact ⟨cur, List.mem_singleton.mp hc⟩
    · simp at hc
  | cons s rest ih =>
    unfold chunkLoop at hc
    split at hc
    · rcases List.mem_cons.mp hc with h | h
      · exact ⟨cur, h⟩
      · exact ih _ h
    · exact ih _ hc

theorem head?_of_head?_take {α : Type} (l : List α) (n : Nat) (x : α)
    (h : (l.take n).head? = some x) : l.head? = some x := by
  cases l with
  | nil => simp at h
  | cons a t =>
    cases n with
    | zero => simp at h
    | succ m => simpa using h

/-! ## Claim theorems -/

/-- C10: `truncateText` is idempotent — truncating an already truncated
text with the same budget returns it unchanged — and its output never
exceeds `4 * maxTokens + 3` characters (`4 * maxTokens` content
characters plus the three-character `'...'` marker). -/
theorem truncateText_idempotent_and_bounded (t : JStr) (m : Nat) :
    truncateText (truncateText t m) m = truncateText t m ∧
    (truncateText t m).length ≤ 4 * m + 3 := by
  unfold truncateText
  by_cases h : t.length ≤ m * 4
  · rw [if_pos h, if_pos h]
    exact ⟨rfl, by omega⟩
  · rw [if_neg h]
    have htk : (t.take (m * 4)).length = m * 4 := by
      rw [List.length_take]
      omega
    have hlen : (t.take (m * 4) ++ "...".toList).length = m * 4 + 3 := by
      rw [List.length_append, htk]
      rfl
    constructor
    · rw [if_neg (by omega), List.take_left' htk]
    · omega

/-- C5: the intent rule of `analyzeQuery` agrees with the spec's ordered
keyword matching (how-to before explanation before comparison before
troubleshooting, then the at-most-3-words reference rule, first match
wins). -/
theorem analyzeQuery_intent_eq_specIntent (queryText : JStr) :
    (analyzeQuery queryText).intent = specIntent queryText := by
  simp only [analyzeQuery, specIntent, detectIntent, specHowToKeywords,
    specExplanationKeywords, specComparisonKeywords, specTroubleshootingKeywords,
    List.map_cons, List.map_nil, List.any_cons, List.any_nil, Bool.or_false,
    Bool.or_assoc]

/-- C6: `analyzeQuery` classifies complexity as complex iff the query
has more than 100 characters or more than 15 space-separated words,
else moderate iff more than 50 characters or more than 8 words, else
simple — each disjunct alone suffices; in particular any 120-character
query is complex. -/
theorem analyzeQuery_complexity_characterization (q : JStr) :
    ((analyzeQuery q).complexity = .complex ↔
      (100 < q.length ∨ 15 < (q.splitOn ' ').length)) ∧
    ((analyzeQuery q).complexity = .moderate ↔
      (¬(100 < q.length ∨ 15 < (q.splitOn ' ').length) ∧
        (50 < q.length ∨ 8 < (q.splitOn ' ').length))) ∧
    ((analyzeQuery q).complexity = .simple ↔
      (¬(100 < q.length ∨ 15 < (q.splitOn ' ').length) ∧
        ¬(50 < q.length ∨ 8 < (q.splitOn ' ').length))) ∧
    (q.length = 120 → (analyzeQuery q).complexity = .complex) := by
  by_cases hA : 100 < q.length ∨ 15 < (q.splitOn ' ').length <;>
    by_cases hB : 50 < q.length ∨ 8 < (q.splitOn ' ').length <;>
    simp [analyzeQuery, detectComplexity, hA, hB] <;>
    omega

/-- C6 witness: a concrete 120-character query is classified complex. -/
theorem analyzeQuery_complexity_witness :
    (analyzeQuery (List.replicate 120 'a')).complexity = .complex :=
  (analyzeQuery_complexity_characterization (List.replicate 120 'a')).2.2.2 (by decide)

/-- C7 counterexample: on the empty string the intent is not none (the
at-most-3-words rule fires, yielding reference). -/
theorem analyzeQuery_empty_intent_not_none :
    ¬ ((analyzeQuery []).intent = none) := by decide

/-- C7 (amended): `analyzeQuery` on the empty string returns intent
reference (the empty string splits into one empty word, and 1 ≤ 3),
complexity simple, and empty topic and language lists. -/
theorem analyzeQuery_empty :
    analyzeQuery [] =
      { intent := some .reference, complexity := .simple, topics := [], languages := [] } := by
  decide

/-- C8 counterexample: a trimmed chunk of exactly 20 characters is
produced by the accumulation phase and then discarded by the
`chunk.length > 20` filter, so `chunkText` drops it. -/
theorem chunkText_drops_twenty_char_chunk :
    rawChunks (List.replicate 20 'a') 500 = [List.replicate 20 'a'] ∧
    trim (List.replicate 20 'a') = List.replicate 20 'a' ∧
    chunkText (List.replicate 20 'a') 500 = [] := by
  refine ⟨by decide, by decide, by decide⟩

/-- C8 (amended): every chunk returned by `chunkText` is trimmed and
longer than 20 characters — `chunkText` is exactly the accumulation
phase followed by the `length > 20` filter, so trimmed chunks of 20
characters or fewer are discarded and longer ones retained — and the
empty input produces the empty sequence. -/
theorem chunkText_trimmed_and_filtered (text : JStr) (chunkSize : Nat) :
    chunkText text chunkSize =
      (rawChunks text chunkSize).filter (fun chunk => decide (20 < chunk.length)) ∧
    (∀ c ∈ chunkText text chunkSize, trim c = c ∧ 20 < c.length) ∧
    chunkText [] chunkSize = [] := by
  refine ⟨rfl, ?_, ?_⟩
  · intro c hc
    have hmf := List.mem_filter.mp
      (show c ∈ (rawChunks text chunkSize).filter (fun chunk => decide (20 < chunk.length))
        from hc)
    obtain ⟨b, hb⟩ := mem_chunkLoop_eq_trim chunkSize (sentencesOf text) [] c hmf.1
    refine ⟨by rw [hb, trim_trim], by simpa using hmf.2⟩
  · have h2 : trim [' '] = [] := by decide
    simp [chunkText, rawChunks, sentencesOf, matchSentences, msGo, chunkLoop, h2]

/-- Inversion for a successful request: a success response always comes
from some embedding step and search dispatch, and its bookkeeping fields
and the stored tracking row are built from the full result list. -/
theorem postOk_inv (req : SearchRequest) (env : Env) (resp : SuccessResponse)
    (rec : Option TrackRow) (h : POST req env = .ok (resp, rec)) :
    ∃ queryEmbedding results searchMethod,
      runSearch req env queryEmbedding = .ok (results, searchMethod) ∧
      resp.search.resultCount = results.length ∧
      resp.search.foundInDocs = decide (0 < results.length) ∧
      resp.results = results.take req.matchCount ∧
      ∀ row ∈ rec,
        row.found_in_docs = decide (0 < results.length) ∧
        row.top_similarity_score =
          jsOrNull (results.head?.bind (fun r => r.similarity))
            (results.head?.bind (fun r => r.combined_score)) := by
  unfold POST at h
  split at h
  · simp at h
  · rcases hpc : postCore req env with e | v
    · rw [hpc] at h
      simp at h
    · rw [hpc] at h
      simp only [Except.ok.injEq] at h
      subst h
      unfold postCore at hpc
      rcases hqe : getQueryEmbedding req env with e | qe
      · rw [hqe] at hpc
        simp at hpc
      · rw [hqe] at hpc
        dsimp only at hpc
        rcases hrs : runSearch req env qe with e | pr
        · rw [hrs] at hpc
          simp at hpc
        · obtain ⟨results, searchMethod⟩ := pr
          rw [hrs] at hpc
          dsimp only at hpc
          simp only [Except.ok.injEq, Prod.mk.injEq] at hpc
          obtain ⟨hresp, hrec⟩ := hpc
          subst hresp
          subst hrec
          refine ⟨qe, results, searchMethod, hrs, rfl, rfl, rfl, ?_⟩
          intro row hrow
          by_cases ht : req.trackQuery
          · simp only [ht, if_true] at hrow
            rcases hir : env.insertResult with e | oid
            · rw [hir] at hrow
              simp at hrow
            · rcases oid with _ | id
              · rw [hir] at hrow
                simp at hrow
              · rw [hir] at hrow
                dsimp only at hrow
                simp only [Option.mem_def, Option.some.injEq] at hrow
                subst hrow
                exact ⟨rfl, rfl⟩
          · simp [ht] at hrow

/-- C1: when the search type is semantic or hybrid and the embedding
provider call throws, the handler does not fall back to fulltext — the
thrown error propagates to the outer catch and the whole request fails
with a 500 error response carrying the provider's message. -/
theorem POST_embedding_failure_returns_500 (req : SearchRequest) (env : Env) (e : JStr)
    (hty : req.searchType = .semantic ∨ req.searchType = .hybrid)
    (hq : ¬ (trim req.query).length = 0)
    (he : env.embedResult = .error e) :
    POST req env =
      .error { status := 500, message := e, responseTime := some env.elapsed } := by
  have h1 : getQueryEmbedding req env = .error e := by
    unfold getQueryEmbedding
    rw [if_pos hty, he]
  have h2 : postCore req env = .error e := by
    unfold postCore
    rw [h1]
  unfold POST
  rw [if_neg hq, h2]

/-- C1 witness: a concrete semantic request whose embedding call throws
is answered with a 500 error response, not a fulltext success. -/
theorem POST_embedding_failure_returns_500_witness :
    POST { query := "test".toList, searchType := .semantic }
      { embedResult := .error "provider down".toList, semanticResult := .ok none,
        hybridResult := .ok none, fulltextResult := .ok none,
        insertResult := .ok none, elapsed := 5 } =
      .error { status := 500, message := "provider down".toList, responseTime := some 5 } :=
  POST_embedding_failure_returns_500 _ _ _ (Or.inl rfl) (by decide) rfl

/-- C2: on every successful response, `foundInDocs` (in the response and
in any stored tracking row) is true iff the result list produced by the
selected strategy is non-empty (its length is the reported
`resultCount`). -/
theorem POST_foundInDocs_iff_results_nonempty (req : SearchRequest) (env : Env)
    (resp : SuccessResponse) (rec : Option TrackRow)
    (h : POST req env = .ok (resp, rec)) :
    (resp.search.foundInDocs = true ↔ 0 < resp.search.resultCount) ∧
    ∀ row ∈ rec, row.found_in_docs = resp.search.foundInDocs := by
  obtain ⟨qe, results, method, hrs, hcount, hfound, hres, hrows⟩ := postOk_inv req env resp rec h
  constructor
  · rw [hfound, hcount]
    simp
  · intro row hrow
    rw [hfound]
    exact (hrows row hrow).1

/-- C2 witness: on a concrete request with one fulltext result, the
response and the stored row both report `foundInDocs = true`. -/
theorem POST_foundInDocs_iff_results_nonempty_witness :
    POST c2req c2env = .ok (c2resp, some c2row) ∧
    ((c2resp.search.foundInDocs = true ↔ 0 < c2resp.search.resultCount) ∧
      ∀ row ∈ some c2row, row.found_in_docs = c2resp.search.foundInDocs) :=
  ⟨by decide, POST_foundInDocs_iff_results_nonempty c2req c2env c2resp (some c2row) (by decide)⟩

/-- C9 counterexample: a semantic search whose first result carries a
similarity score of 0 records a null top score (JavaScript `||` treats 0
as falsy), not the 0 the claim requires. -/
theorem POST_topScore_zero_counterexample :
    storedTopScore (POST { query := "test".toList, searchType := .semantic }
      { embedResult := .ok [],
        semanticResult := .ok (some [{ page_id := 1, similarity := some 0 }]),
        hybridResult := .ok none, fulltextResult := .ok none,
        insertResult := .ok (some 7), elapsed := 3 }) = some none ∧
    (some none : Option (Option ℚ)) ≠ some (some 0) :=
  ⟨by decide, by decide⟩

/-- C9 (amended): the recorded top score is the JavaScript disjunction
`first.similarity || first.combined_score || null` — it equals the first
result's score field when that score is present and nonzero, and is null
when the result list is empty or the scores are absent or zero. -/
theorem POST_topScore_amended (req : SearchRequest) (env : Env)
    (resp : SuccessResponse) (rec : Option TrackRow) (row : TrackRow)
    (h : POST req env = .ok (resp, rec)) (hrow : row ∈ rec) :
    (resp.search.resultCount = 0 → row.top_similarity_score = none) ∧
    ∀ r, resp.results.head? = some r →
      row.top_similarity_score = jsOrNull r.similarity r.combined_score := by
  obtain ⟨qe, results, method, hrs, hcount, hfound, hres, hrows⟩ := postOk_inv req env resp rec h
  have htop := (hrows row hrow).2
  constructor
  · intro h0
    rw [hcount] at h0
    have hnil : results = [] := List.length_eq_zero.mp h0
    subst hnil
    simpa [jsOrNull, truthyNum] using htop
  · intro r hr
    rw [hres] at hr
    have hhead : results.head? = some r := head?_of_head?_take results req.matchCount r hr
    rw [htop, hhead]
    rfl

/-- C9 witness: on a concrete hybrid search whose first result has a
nonzero combined score of 1, the stored top score is that combined
score. -/
theorem POST_topScore_amended_witness :
    c9row.top_similarity_score =
      jsOrNull ({ page_id := 4, combined_score := some 1 : ResultRow }).similarity
        ({ page_id := 4, combined_score := some 1 : ResultRow }).combined_score :=
  (POST_topScore_amended c9req c9env c9resp (some c9row) c9row (by decide) rfl).2
    { page_id := 4, combined_score := some 1 } (by decide)

/-- C8 witness: a concrete 25-character chunk is returned by `chunkText`
trimmed and longer than 20 characters. -/
theorem chunkText_trimmed_and_filtered_witness :
    trim (List.replicate 25 'a') = List.replicate 25 'a' ∧
    20 < (List.replicate 25 'a').length :=
  (chunkText_trimmed_and_filtered (List.replicate 25 'a') 500).2.1
    (List.replicate 25 'a') (by decide)

/-- Unfolding equation for one iteration of the `gEBgo` loop. -/
theorem gEBgo_cons (oracle : ProviderOracle) (fuel : Nat) (t : JStr) (ts : List JStr) (idx : Nat) :
    gEBgo oracle (fuel + 1) (t :: ts) idx =
      (let batch := (t :: ts).take BATCH_SIZE
       match oracle idx (batch.map (fun s => truncateText s MAX_TOKENS)) with
       | .error e => .error e
       | .ok (data, total) =>
         match gEBgo oracle fuel ((t :: ts).drop BATCH_SIZE) (idx + 1) with
         | .error e => .error e
         | .ok rest =>
           .ok ((data.map fun emb =>
             { embedding := emb, tokenCount := total / (batch.length : ℚ) }) ++ rest)) := rfl

/-- A provider error on the first (and, for at most `BATCH_SIZE` texts,
only) call makes `generateEmbeddingsBatch` throw that error. -/
theorem gEB_error_of_first (texts : List JStr) (oracle : ProviderOracle) (e : JStr)
    (hne : texts ≠ []) (hlen : texts.length ≤ BATCH_SIZE)
    (h : oracle 0 (texts.map (fun s => truncateText s MAX_TOKENS)) = .error e) :
    generateEmbeddingsBatch texts oracle = .error e := by
  obtain ⟨t, ts, rfl⟩ := List.exists_cons_of_ne_nil hne
  show gEBgo oracle (ts.length + 1) (t :: ts) 0 = .error e
  rw [gEBgo_cons]
  dsimp only
  rw [List.take_of_length_le hlen, h]

/-- `foldl addDelta` computes the componentwise sums. -/
theorem foldl_addDelta_eq_sums (l : List (Nat × Nat × Int)) (a : Nat × Nat × Int) :
    l.foldl addDelta a =
      (a.1 + (l.map (fun d => d.1)).sum, a.2.1 + (l.map (fun d => d.2.1)).sum,
        a.2.2 + (l.map (fun d => d.2.2)).sum) := by
  induction l generalizing a with
  | nil => simp
  | cons x t ih =>
    rw [List.foldl_cons, ih]
    simp only [List.map_cons, List.sum_cons, addDelta]
    refine Prod.ext ?_ (Prod.ext ?_ ?_) <;> dsimp <;> omega

/-- What a successful `gEBgo` run returns: the concatenation, over all
slices, of the per-slice items (each getting its call's aggregate token
count divided by the slice's length). -/
theorem gEBgo_ok_eq (oracle : ProviderOracle) :
    ∀ (fuel : Nat) (texts : List JStr) (idx : Nat) (res : List EmbItem),
      texts.length ≤ fuel →
      gEBgo oracle fuel texts idx = .ok res →
      res = ((List.range (numBatches texts.length)).map
        (fun j => sliceItems (fun k ts => oracle (idx + k) ts) texts j)).flatten := by
  intro fuel
  induction fuel with
  | zero =>
    intro texts idx res hlen h
    have htx : texts = [] := List.eq_nil_of_length_eq_zero (Nat.le_zero.mp hlen)
    subst htx
    simp only [gEBgo, Except.ok.injEq] at h
    subst h
    rfl
  | succ fuel ih =>
    intro texts idx res hlen h
    match texts with
    | [] =>
      simp only [gEBgo, Except.ok.injEq] at h
      subst h
      rfl
    | t :: ts =>
      rw [gEBgo_cons] at h
      dsimp only at h
      rcases horacle : oracle idx (((t :: ts).take BATCH_SIZE).map
          (fun s => truncateText s MAX_TOKENS)) with e | ⟨data, total⟩
      · rw [horacle] at h
        simp at h
      · rw [horacle] at h
        rcases hrec : gEBgo oracle fuel ((t :: ts).drop BATCH_SIZE) (idx + 1) with e | rest
        · rw [hrec] at h
          simp at h
        · rw [hrec] at h
          simp only [Except.ok.injEq] at h
          subst h
          have hlen' : ((t :: ts).drop BATCH_SIZE).length ≤ fuel := by
            rw [List.length_drop]
            simp only [List.length_cons] at hlen ⊢
            have : 0 < BATCH_SIZE := by decide
            omega
          have hrest := ih ((t :: ts).drop BATCH_SIZE) (idx + 1) rest hlen' hrec
          have hnb : numBatches (t :: ts).length =
              numBatches ((t :: ts).drop BATCH_SIZE).length + 1 := by
            rw [List.length_drop]
            simp only [numBatches, BATCH_SIZE, List.length_cons]
            omega
          rw [hnb, List.range_succ_eq_map]
          simp only [List.map_cons, List.flatten_cons]
          congr 1
          · have h0 : sliceOf (t :: ts) 0 = (t :: ts).take BATCH_SIZE := by
              simp [sliceOf]
            simp only [sliceItems, Nat.add_zero, h0, horacle]
          · rw [hrest, List.map_map]
            congr 1
            apply List.map_congr_left
            intro j hj
            simp only [Function.comp]
            have hs : sliceOf (t :: ts) (j + 1) = sliceOf ((t :: ts).drop BATCH_SIZE) j := by
              unfold sliceOf
              rw [List.drop_drop]
              congr 2
              ring
            show sliceItems (fun k ts2 => oracle (idx + 1 + k) ts2) ((t :: ts).drop BATCH_SIZE) j =
              sliceItems (fun k ts2 => oracle (idx + k) ts2) (t :: ts) (j + 1)
            simp only [sliceItems, hs]
            have hidx : idx + (j + 1) = idx + 1 + j := by omega
            rw [hidx]

/-- C4: whatever `generateEmbeddingsBatch` returns successfully is the
concatenation of the per-slice items, and within slice `j` every item's
reported `tokenCount` is the provider's aggregate token count for that
call divided by the number of texts in that slice (`sliceItems`
distributes the aggregate evenly). -/
theorem generateEmbeddingsBatch_even_token_split (texts : List JStr) (oracle : ProviderOracle)
    (res : List EmbItem) (h : generateEmbeddingsBatch texts oracle = .ok res) :
    res = ((List.range (numBatches texts.length)).map
      (fun j => sliceItems oracle texts j)).flatten := by
  have hshift : (fun k ts => oracle (0 + k) ts) = oracle := by
    funext k ts
    rw [Nat.zero_add]
  have hmain := gEBgo_ok_eq oracle texts.length texts 0 res le_rfl h
  rw [hshift] at hmain
  exact hmain

/-- C4 witness: a batch of 3 texts with aggregate token usage 300 gives
every item a reported token count of 300/3 = 100. -/
theorem generateEmbeddingsBatch_even_token_split_witness :
    generateEmbeddingsBatch c4texts c4oracle = .ok c4res ∧
    c4res = ((List.range (numBatches c4texts.length)).map
      (fun j => sliceItems c4oracle c4texts j)).flatten ∧
    c4res.map (fun it => it.tokenCount) = [100, 100, 100] :=
  ⟨rfl, generateEmbeddingsBatch_even_token_split c4texts c4oracle c4res rfl,
    by norm_num [c4res]⟩

/-- `foldl` of the batch loop body computes componentwise sums of the
per-batch deltas. -/
theorem foldl_addDelta_enum (o : ProviderOracle) (u : UpdateOracle)
    (l : List (Nat × List PageRec)) (a : Nat × Nat × Int) :
    l.foldl (fun acc ib => addDelta acc (processBatch o u ib.1 ib.2)) a =
      (a.1 + ((l.map (fun ib => processBatch o u ib.1 ib.2)).map (fun d => d.1)).sum,
        a.2.1 + ((l.map (fun ib => processBatch o u ib.1 ib.2)).map (fun d => d.2.1)).sum,
        a.2.2 + ((l.map (fun ib => processBatch o u ib.1 ib.2)).map (fun d => d.2.2)).sum) := by
  rw [← List.foldl_map (fun ib => processBatch o u ib.1 ib.2) addDelta l a,
    foldl_addDelta_eq_sums]

/-- C3: `generateMissingEmbeddings` is the batchwise sum of independent
per-batch contributions; a batch whose embedding call throws contributes
0 to `processed` and its full page count to `failed`; and each batch's
contribution depends only on the oracles' behavior at that batch's
index, so later batches proceed unaffected by an earlier failure. -/
theorem generateMissingEmbeddings_batch_failure_spec :
    (∀ (pages : List PageRec) (o : ProviderOracle) (u : UpdateOracle),
      generateMissingEmbeddings pages o u =
        { processed := (((batchesOf pages).enum.map
              (fun ib => processBatch o u ib.1 ib.2)).map (fun d => d.1)).sum
          failed := (((batchesOf pages).enum.map
              (fun ib => processBatch o u ib.1 ib.2)).map (fun d => d.2.1)).sum
          totalCost :=
            (((((batchesOf pages).enum.map
                  (fun ib => processBatch o u ib.1 ib.2)).map (fun d => d.2.2)).sum : ℤ) : ℚ) /
              1000 * (2 / 100000) }) ∧
    (∀ (o : ProviderOracle) (u : UpdateOracle) (i : Nat) (batch : List PageRec) (e : JStr),
      batch ≠ [] → batch.length ≤ BATCH_SIZE →
      o i ((batch.map (fun p => trim (p.title ++ '\n' :: '\n' :: p.content))).map
        (fun s => truncateText s MAX_TOKENS)) = .error e →
      processBatch o u i batch = (0, batch.length, 0)) ∧
    (∀ (o o2 : ProviderOracle) (u u2 : UpdateOracle) (i : Nat) (batch : List PageRec),
      o i = o2 i → u i = u2 i →
      processBatch o u i batch = processBatch o2 u2 i batch) := by
  refine ⟨?_, ?_, ?_⟩
  · intro pages o u
    unfold generateMissingEmbeddings
    split
    · rename_i hnil
      subst hnil
      show ({ processed := 0, failed := 0, totalCost := 0 } : GenResult) = _
      have hb : batchesOf ([] : List PageRec) = [] := rfl
      rw [hb]
      simp
    · dsimp only
      rw [foldl_addDelta_enum]
      simp
  · intro o u i batch e hne hlen horacle
    have htne : batch.map (fun p => trim (p.title ++ '\n' :: '\n' :: p.content)) ≠ [] := by
      simpa using hne
    have htlen : (batch.map (fun p => trim (p.title ++ '\n' :: '\n' :: p.content))).length ≤
        BATCH_SIZE := by
      simpa using hlen
    have hthrow := gEB_error_of_first _ (fun _ ts => o i ts) e htne htlen horacle
    unfold processBatch
    dsimp only
    rw [hthrow]
  · intro o o2 u u2 i batch ho hu
    unfold processBatch
    rw [ho, hu]

/-- C3 witness: a batch of 5 pages whose embedding call throws
contributes `processed = 0`, `failed = 5`, and the whole run reports
exactly that. -/
theorem generateMissingEmbeddings_batch_failure_witness :
    processBatch c3oracle c3upd 0 c3pages = (0, 5, 0) ∧
    (generateMissingEmbeddings c3pages c3oracle c3upd).processed = 0 ∧
    (generateMissingEmbeddings c3pages c3oracle c3upd).failed = 5 :=
  ⟨generateMissingEmbeddings_batch_failure_spec.2.1 c3oracle c3upd 0 c3pages
      "rate limited".toList (by decide) (by decide) rfl,
    by rw [generateMissingEmbeddings_batch_failure_spec.1 c3pages c3oracle c3upd]; decide,
    by rw [generateMissingEmbeddings_batch_failure_spec.1 c3pages c3oracle c3upd]; decide⟩

end Javari
